import Mathlib

/-!
Verification development for the doctor-playwright monitoring state machine.

Shallow embedding of the monitoring core of the repository:
  * `src/src/checker.py` — `_parse_slot_datetime`, `find_next_slot`, the slot
    extraction loop of `check_availability` (lines 292-331), and the
    `--monitor` loop body (lines 476-504);
  * `src/tools/update_state_and_notify.py` — the per-cycle decision engine of
    `main()` (lines 85-204).

Conventions of the embedding:
  * A Python value that may be `None` is an `Option`.
  * Python string truthiness (`if s:`) is `pyTruthy`: `None` and `""` are falsy.
  * Instants are natural numbers of minutes on a proleptic Gregorian axis
    (days counted by the standard civil-days formula), so `datetime`
    comparison and `timedelta(days=n)` addition are `Nat` comparison and
    `+ n * 1440`.
  * An operation that can raise is modelled with `Option` (`none` = raised);
    where an exception is caught in the source, the handler's effect is
    reproduced at the `none` case.
  * State dictionaries are association lists with Python `dict` semantics
    (replace-in-place on existing key, append on new key).  A key that is
    absent is identified with its read default (`get("paused", False)` etc.),
    which is read-equivalent in every access the scripts perform.
-/

/-- Python string truthiness: `None` and `""` are falsy. -/
def pyTruthy : Option String → Bool
  | none => false
  | some s => s ≠ ""

/-- Python `a or b` restricted to optional strings: yields `a` when `a` is
truthy, otherwise `b` (which may itself be `None` or `""`). -/
def pyOr (a b : Option String) : Option String :=
  if pyTruthy a then a else b

/-! ## CPython `strptime` model for the format `"%d/%m/%Y %H:%M"`

`_parse_slot_datetime` (checker.py lines 387-393) calls
`datetime.strptime(hora_str, "%d/%m/%Y %H:%M")` and returns `None` on any
exception.  CPython's `_strptime` compiles the format to a regex and the
numeric directives are ordered alternations:

  `%d` = `3[01]|[12]\d|0[1-9]|[1-9]`, `%m` = `1[0-2]|0[1-9]|[1-9]`,
  `%Y` = `\d\d\d\d`, `%H` = `2[0-3]|[0-1]\d|\d`, `%M` = `[0-5]\d|\d`,

a literal `/` or `:` matches itself and a space in the format matches one or
more whitespace characters.  The whole input must be consumed, otherwise
`strptime` raises ("unconverted data remains").  After the regex, the
`datetime` constructor rejects a day beyond the month length and a year
outside `1..9999`.  Each two-digit alternative is followed in the format by a
non-digit literal (or the end), so committing to the longest alternative that
matches locally is equivalent to regex backtracking here; digits are modelled
as ASCII digits. -/

/-- Numeric value of an ASCII digit character. -/
def digitVal (c : Char) : Nat := c.toNat - 48

/-- Whitespace characters recognised for the format's `\s+` (the common ASCII
whitespace; exotic Unicode spaces are not modelled). -/
def isPySpace (c : Char) : Bool :=
  c = ' ' ∨ c = '\t' ∨ c = '\n' ∨ c = '\r'

/-- `%d`: `3[01]|[12]\d|0[1-9]|[1-9]`, returning the value and the rest. -/
def matchDay : List Char → Option (Nat × List Char)
  | c1 :: c2 :: rest =>
    if c1 = '3' ∧ (c2 = '0' ∨ c2 = '1') then some (30 + digitVal c2, rest)
    else if (c1 = '1' ∨ c1 = '2') ∧ c2.isDigit then
      some (digitVal c1 * 10 + digitVal c2, rest)
    else if c1 = '0' ∧ c2.isDigit ∧ c2 ≠ '0' then some (digitVal c2, rest)
    else if c1.isDigit ∧ c1 ≠ '0' then some (digitVal c1, c2 :: rest)
    else none
  | [c1] => if c1.isDigit ∧ c1 ≠ '0' then some (digitVal c1, []) else none
  | [] => none

/-- `%m`: `1[0-2]|0[1-9]|[1-9]`. -/
def matchMonth : List Char → Option (Nat × List Char)
  | c1 :: c2 :: rest =>
    if c1 = '1' ∧ (c2 = '0' ∨ c2 = '1' ∨ c2 = '2') then
      some (10 + digitVal c2, rest)
    else if c1 = '0' ∧ c2.isDigit ∧ c2 ≠ '0' then some (digitVal c2, rest)
    else if c1.isDigit ∧ c1 ≠ '0' then some (digitVal c1, c2 :: rest)
    else none
  | [c1] => if c1.isDigit ∧ c1 ≠ '0' then some (digitVal c1, []) else none
  | [] => none

/-- `%Y`: exactly four digits. -/
def matchYear : List Char → Option (Nat × List Char)
  | a :: b :: c :: d :: rest =>
    if a.isDigit ∧ b.isDigit ∧ c.isDigit ∧ d.isDigit then
      some (((digitVal a * 10 + digitVal b) * 10 + digitVal c) * 10 + digitVal d, rest)
    else none
  | _ => none

/-- `%H`: `2[0-3]|[0-1]\d|\d`. -/
def matchHour : List Char → Option (Nat × List Char)
  | c1 :: c2 :: rest =>
    if c1 = '2' ∧ (c2 = '0' ∨ c2 = '1' ∨ c2 = '2' ∨ c2 = '3') then
      some (20 + digitVal c2, rest)
    else if (c1 = '0' ∨ c1 = '1') ∧ c2.isDigit then
      some (digitVal c1 * 10 + digitVal c2, rest)
    else if c1.isDigit then some (digitVal c1, c2 :: rest)
    else none
  | [c1] => if c1.isDigit then some (digitVal c1, []) else none
  | [] => none

/-- `%M`: `[0-5]\d|\d`. -/
def matchMinute : List Char → Option (Nat × List Char)
  | c1 :: c2 :: rest =>
    if (c1 = '0' ∨ c1 = '1' ∨ c1 = '2' ∨ c1 = '3' ∨ c1 = '4' ∨ c1 = '5') ∧ c2.isDigit then
      some (digitVal c1 * 10 + digitVal c2, rest)
    else if c1.isDigit then some (digitVal c1, c2 :: rest)
    else none
  | [c1] => if c1.isDigit then some (digitVal c1, []) else none
  | [] => none

/-- One or more whitespace characters (the format's single space). -/
def skipSpaces : List Char → Option (List Char)
  | c :: rest =>
    if isPySpace c then some (rest.dropWhile isPySpace) else none
  | [] => none

/-- A literal character of the format. -/
def matchLit (ch : Char) : List Char → Option (List Char)
  | c :: rest => if c = ch then some rest else none
  | [] => none

/-- Run the compiled `"%d/%m/%Y %H:%M"` pattern over the whole string,
yielding `(day, month, year, hour, minute)`. -/
def strptimeFields (s : String) : Option (Nat × Nat × Nat × Nat × Nat) := do
  let (d, r1) ← matchDay s.toList
  let r2 ← matchLit '/' r1
  let (m, r3) ← matchMonth r2
  let r4 ← matchLit '/' r3
  let (y, r5) ← matchYear r4
  let r6 ← skipSpaces r5
  let (hh, r7) ← matchHour r6
  let r8 ← matchLit ':' r7
  let (mi, r9) ← matchMinute r8
  if r9 = [] then pure (d, m, y, hh, mi) else none

/-- Gregorian leap year. -/
def isLeap (y : Nat) : Bool :=
  (y % 4 = 0 ∧ y % 100 ≠ 0) ∨ y % 400 = 0

/-- Days in a month of a given year. -/
def daysInMonth (y m : Nat) : Nat :=
  if m = 2 then (if isLeap y then 29 else 28)
  else if m = 4 ∨ m = 6 ∨ m = 9 ∨ m = 11 then 30
  else 31

/-- Day count of a civil date on a proleptic Gregorian axis (standard
civil-days formula with the era origin at 0000-03-01; valid for year ≥ 1,
which the parser enforces).  Only its strict monotonicity in valid dates
matters for the comparisons the scripts perform. -/
def daysFromCivil (y m d : Nat) : Nat :=
  let yAdj := if m ≤ 2 then y - 1 else y
  let era := yAdj / 400
  let yoe := yAdj - era * 400
  let mp := if m > 2 then m - 3 else m + 9
  let doy := (153 * mp + 2) / 5 + d - 1
  let doe := yoe * 365 + yoe / 4 - yoe / 100 + doy
  era * 146097 + doe

/-- Instant in minutes of a civil date-time. -/
def toInstant (y m d hh mi : Nat) : Nat :=
  daysFromCivil y m d * 1440 + hh * 60 + mi

/-- `_parse_slot_datetime` (checker.py lines 387-393): parse
`'dd/mm/YYYY HH:MM'`, `None` on any exception — a regex mismatch, leftover
input, a day beyond the month length, or a year outside `datetime`'s range. -/
def parse_slot_datetime (s : String) : Option Nat :=
  match strptimeFields s with
  | none => none
  | some (d, m, y, hh, mi) =>
    if 1 ≤ y ∧ d ≤ daysInMonth y m then some (toInstant y m d hh mi) else none

/-- `_parse_slot_datetime` applied to a value that may be `None`
(`strptime(None, …)` raises `TypeError`, caught by the same handler). -/
def parseOptDt : Option String → Option Nat
  | none => none
  | some s => parse_slot_datetime s

/-! ## SlotRecord and the Temporal Matcher -/

/-- One slot dictionary as consumed by `find_next_slot` and the two drivers.
The scripts access exactly the keys `"doctor"`, `"HORA"`, `"hora"` and
`"PROXIMA"`; each field is `none` when the key is absent. -/
structure Slot where
  doctor : Option String := none
  HORA : Option String := none
  hora : Option String := none
  PROXIMA : Option String := none
deriving DecidableEq, Repr

/-- Python `needle in hay` on strings, as an executable check over the
character lists (the empty needle is contained in everything). -/
def listContains (needle : List Char) : List Char → Bool
  | [] => needle.isEmpty
  | c :: rest => needle.isPrefixOf (c :: rest) || listContains needle rest

/-- Python `str.lower()`, modelled on the character list (ASCII case
folding; the provider names the scripts handle are ASCII). -/
def lowerChars (s : String) : List Char :=
  s.toList.map Char.toLower

/-- The instant of one slot in `find_next_slot` (checker.py lines 406-409):
the chain `s.get("HORA") or s.get("hora") or s.get("PROXIMA") or
s.get("PROXIMA")` must be truthy and parse, otherwise there is no instant. -/
def slotDt (s : Slot) : Option Nat :=
  let hora := pyOr s.HORA (pyOr s.hora (pyOr s.PROXIMA s.PROXIMA))
  match hora with
  | some h => if h ≠ "" then parse_slot_datetime h else none
  | none => none

/-- The candidate a single slot contributes in `find_next_slot`
(checker.py lines 403-411): the provider must contain the lowered target,
the slot must have an instant, and the instant must lie in `(now, cutoff]`. -/
def candOf (now cutoff : Nat) (tdLower : List Char) (s : Slot) : Option (Nat × Slot) :=
  let doc := lowerChars (s.doctor.getD "")
  if listContains tdLower doc then
    match slotDt s with
    | some t => if now < t ∧ t ≤ cutoff then some (t, s) else none
    | none => none
  else none

/-- The `candidates` list of `find_next_slot`, in input order. -/
def findCandidates (slots : List Slot) (target_doctor : String) (max_days now : Nat) :
    List (Nat × Slot) :=
  slots.filterMap (candOf now (now + max_days * 1440) (lowerChars target_doctor))

/-- One fold step keeping the earlier (strictly smaller) instant. -/
def stepMin (best p : Nat × Slot) : Nat × Slot :=
  if p.1 < best.1 then p else best

/-- `candidates.sort(key=λ x: x[0]); candidates[0]`: Python's sort is stable,
so the head of the sorted list is the first element attaining the minimal
instant, which this fold computes. -/
def minByFirst : List (Nat × Slot) → Option (Nat × Slot)
  | [] => none
  | c :: cs => some (cs.foldl stepMin c)

/-- `find_next_slot` (checker.py lines 396-415): nearest slot for
`target_doctor` within `max_days`, or `None`.  `now` is the current instant
(the source reads `datetime.now()`). -/
def find_next_slot (slots : List Slot) (target_doctor : String) (max_days now : Nat) :
    Option Slot :=
  match minByFirst (findCandidates slots target_doctor max_days now) with
  | some p => some p.2
  | none => none

example : parse_slot_datetime "15/06/2025 09:00" = some (toInstant 2025 6 15 9 0) := by decide
example : parse_slot_datetime "31/02/2025 09:00" = none := by decide
example : parse_slot_datetime "15/06/2025" = none := by decide
example : parse_slot_datetime "" = none := by decide
example : parse_slot_datetime "5/6/2025 9:05" = some (toInstant 2025 6 5 9 5) := by decide
example : parse_slot_datetime "15/06/2025 24:00" = none := by decide
example : toInstant 2025 6 15 9 0 < toInstant 2025 6 20 10 0 := by decide
example :
    find_next_slot [{ doctor := some "Dr Alvarez", hora := some "15/06/2025 09:00" }]
      "Alvarez" 30 (toInstant 2025 6 10 0 0) =
      some { doctor := some "Dr Alvarez", hora := some "15/06/2025 09:00" } := by decide

/-! ## Monitor state and the CI decision engine

`tools/update_state_and_notify.py` `main()` (lines 85-204), given the slots
of the newest export, the target provider, the environment thresholds and the
prior state mapping.  The driver preamble (locating the newest
`slots_*.json`, reading `TARGET_DOCTOR`, globbing `submit_failure_*.html`)
is summarised by the parameters `slots`, `target` and `captcha_detected`.

`paused_until` is stored as an ISO timestamp string.  The script writes it
with `datetime.now(timezone.utc).isoformat()` — an offset-aware value — and
on later cycles parses it with `datetime.fromisoformat` and compares it with
the naive `datetime.utcnow()`.  In Python, comparing a naive and an aware
datetime raises `TypeError`, which the surrounding `except` treats like a
parse failure ("Failed parsing paused_until; keeping monitor paused").  The
embedding therefore distinguishes the three shapes a stored value can have. -/

/-- A stored `paused_until` string: unparsable, an offset-naive timestamp, or
an offset-aware timestamp (the shape this script itself writes). -/
inductive IsoVal : Type where
  | malformed : IsoVal
  | naive : Nat → IsoVal
  | aware : Nat → IsoVal
deriving DecidableEq, Repr

/-- One per-provider entry of `state.json`.  An absent key is identified with
its read default: `saved.get("hora")` → `none`, `saved.get("paused", False)`
→ `false`, `int(saved.get("consecutive_failures", 0))` → `0`,
`saved.get("paused_until")` → `none`. -/
structure SavedEntry where
  hora : Option String := none
  raw : Option Slot := none
  consecutive_failures : Nat := 0
  paused : Bool := false
  paused_until : Option IsoVal := none
deriving DecidableEq, Repr

/-- The state mapping, with Python `dict` update semantics. -/
abbrev StateMap := List (String × SavedEntry)

/-- `state.get(target)`. -/
def lookupState : StateMap → String → Option SavedEntry
  | [], _ => none
  | p :: rest, k => if p.1 = k then some p.2 else lookupState rest k

/-- `state[target] = v`: replace an existing key in place, append a new one. -/
def setState : StateMap → String → SavedEntry → StateMap
  | [], k, v => [(k, v)]
  | p :: rest, k, v => if p.1 = k then (k, v) :: rest else p :: setState rest k v

/-- One attempted `send_notification` call, carrying the data interpolated
into the message (delivery is best effort and does not affect the cycle). -/
inductive Note : Type where
  /-- `f"Monitor resumed for {target}"`. -/
  | resumed (target : String)
  /-- `f"Slot freed for {target}: {new_hora}. Previously: {prev_hora}"`
  (either field prints as `None` when absent). -/
  | slotFreed (target : String) (newHora prevHora : Option String)
  /-- `f"Monitor paused for {target}: detected {failures} consecutive submit
  failures/CAPTCHA. Paused until {pu}. …"`. -/
  | pauseAlert (target : String) (failures : Nat) (pausedUntil : Nat)
deriving DecidableEq, Repr

/-- Everything one CI cycle does: the final in-memory state, every
`save_state` payload in call order, every notification attempted in order,
and the script's return code. -/
structure CycleResult where
  state : StateMap
  saves : List StateMap
  notes : List Note
  ret : Nat
deriving DecidableEq, Repr

/-- The local `parse_dt` of `main()` (lines 100-101):
`checker._parse_slot_datetime(s) if s else None`. -/
def parse_dt (s : Option String) : Option Nat :=
  match s with
  | some str => if str ≠ "" then parse_slot_datetime str else none
  | none => none

/-- Lines 163-202 of `main()`: the slot comparison and the trailing persist.
Reached when the provider is not paused, or after a resume.  Note that the
final `saved.update(…)` / `state[target] = saved` / `save_state` at lines
200-202 sit at function level, so they also run after the initialize and
notify branches — re-persisting the old `saved` dictionary (with
`hora = prev_hora`) over the state those branches had just written. -/
def activeTail (target : String) (state : StateMap) (saved : SavedEntry)
    (prev_hora : Option String) (next_slot : Option Slot) (new_hora : Option String)
    (prev_dt new_dt : Option Nat) (failures : Nat) (paused : Bool)
    (paused_until : Option IsoVal) (failureThreshold pauseHours nowUtc : Nat) :
    CycleResult :=
  let notifyCond : Bool :=
    match new_dt with
    | none => false
    | some nd =>
      match prev_dt with
      | none => true
      | some pd => nd < pd
  if notifyCond then
    -- line 165: `is_first_setup = not prev_hora`
    let freshEntry : SavedEntry :=
      { hora := new_hora,
        raw := next_slot,
        consecutive_failures := 0,
        paused := false,
        paused_until := none }
    let st1 := setState state target freshEntry
    -- lines 200-202, clobbering the branch's own write:
    let saved' : SavedEntry :=
      { saved with
        hora := prev_hora,
        consecutive_failures := failures,
        paused := paused,
        paused_until := paused_until }
    let st2 := setState st1 target saved'
    if pyTruthy prev_hora then
      ⟨st2, [st1, st2], [Note.slotFreed target new_hora prev_hora], 0⟩
    else
      ⟨st2, [st1, st2], [], 0⟩
  else
    if failures ≥ failureThreshold then
      let pu := nowUtc + pauseHours * 60
      let saved' : SavedEntry :=
        { saved with
          hora := prev_hora,
          consecutive_failures := failures,
          paused := true,
          paused_until := some (IsoVal.aware pu) }
      let st := setState state target saved'
      ⟨st, [st], [Note.pauseAlert target failures pu], 0⟩
    else
      let saved' : SavedEntry :=
        { saved with
          hora := prev_hora,
          consecutive_failures := failures,
          paused := paused,
          paused_until := paused_until }
      let st := setState state target saved'
      ⟨st, [st], [], 0⟩

/-- The decision engine of `tools/update_state_and_notify.py` `main()`
(lines 85-204).  `now` is the local-clock instant `find_next_slot` compares
against; `nowUtc` is the UTC instant used by the pause/resume logic. -/
def updateMain (slots : List Slot) (target : String) (max_days : Nat)
    (captcha_detected : Bool) (failureThreshold pauseHours : Nat)
    (now nowUtc : Nat) (state : StateMap) : CycleResult :=
  let next_slot := find_next_slot slots target max_days now
  let saved := (lookupState state target).getD {}
  let prev_hora := saved.hora
  let paused := saved.paused
  let paused_until := saved.paused_until
  -- line 98: `new_hora = next_slot.get("HORA") or next_slot.get("hora") or
  -- next_slot.get("PROXIMA")` when a slot was found
  let new_hora := next_slot.bind fun s => pyOr s.HORA (pyOr s.hora s.PROXIMA)
  let prev_dt := parse_dt prev_hora
  let new_dt := parse_dt new_hora
  -- lines 117-123: failure counter update
  let failures := if captcha_detected then saved.consecutive_failures + 1 else 0
  if paused then
    match paused_until with
    | some (IsoVal.naive t) =>
      if t ≤ nowUtc then
        -- lines 133-142: resume, then fall through to the slot comparison
        let r := activeTail target state saved prev_hora next_slot new_hora
          prev_dt new_dt 0 false none failureThreshold pauseHours nowUtc
        { r with notes := Note.resumed target :: r.notes }
      else
        -- lines 143-149: still paused, persist and return
        let saved' : SavedEntry :=
          { saved with
            hora := prev_hora,
            consecutive_failures := failures,
            paused := paused,
            paused_until := paused_until }
        let st := setState state target saved'
        ⟨st, [st], [], 0⟩
    | some (IsoVal.aware _) | some IsoVal.malformed =>
      -- lines 150-155: `fromisoformat` raised (malformed), or the
      -- naive-vs-aware comparison raised `TypeError`; keep paused
      let saved' : SavedEntry :=
        { saved with
          hora := prev_hora,
          consecutive_failures := failures,
          paused := paused,
          paused_until := paused_until }
      let st := setState state target saved'
      ⟨st, [st], [], 0⟩
    | none =>
      -- lines 156-161: paused with no expiry; persist without touching
      -- `paused_until` and return
      let saved' : SavedEntry :=
        { saved with
          hora := prev_hora,
          consecutive_failures := failures,
          paused := paused }
      let st := setState state target saved'
      ⟨st, [st], [], 0⟩
  else
    activeTail target state saved prev_hora next_slot new_hora prev_dt new_dt
      failures paused paused_until failureThreshold pauseHours nowUtc

/-! ## The CLI monitor loop body

`src/src/checker.py` `__main__` monitor mode, lines 480-503: the comparison
performed each iteration on the slots returned by `check_availability`.
Returns the updated in-memory state, the notifications sent by this
comparison, and whether `save_state` was called this iteration. -/

/-- One iteration of the `--monitor` loop comparison (checker.py lines
480-503). -/
def monitorCycle (slots : List Slot) (target : String) (max_days now : Nat)
    (state : StateMap) : StateMap × List Note × Bool :=
  match find_next_slot slots target max_days now with
  | some next_slot =>
    let saved := lookupState state target
    let prev_hora : Option String :=
      match saved with
      | some sv => sv.hora
      | none => none
    -- line 490: `saved_dt = _parse_slot_datetime(prev_hora) if prev_hora else None`
    let saved_dt : Option Nat :=
      match saved with
      | some sv => if pyTruthy sv.hora then parseOptDt sv.hora else none
      | none => none
    -- line 491
    let new_dt := parseOptDt (pyOr next_slot.HORA (pyOr next_slot.hora next_slot.PROXIMA))
    let cond : Bool :=
      match new_dt with
      | none => false
      | some nd =>
        match saved_dt with
        | none => true
        | some sd => nd < sd
    if cond then
      -- lines 494-498; the message and the stored hora use only the
      -- `HORA or hora` chain here
      let shownHora := pyOr next_slot.HORA next_slot.hora
      let st := setState state target
        { hora := shownHora,
          raw := some next_slot,
          consecutive_failures := 0,
          paused := false,
          paused_until := none }
      (st, [Note.slotFreed target shownHora prev_hora], true)
    else
      (state, [], false)
  | none => (state, [], false)

/-! ## The slot extraction loop

`check_availability` (checker.py lines 292-331): turn the row handles
returned by `page.query_selector_all(sel)` into slot dictionaries.  Each
effectful DOM accessor is modelled with `Option` (`none` = the call raised).
A raise inside the per-row `try` at lines 296-330 skips that row
(`logging.debug`) and the loop continues; the fallback branch catches all of
its own exceptions locally, so only the structured branch can skip a row.
The hidden-input loop (lines 306-314) is guarded by its own `try`, so its
failure leaves the record with whatever was already collected; the embedding
models the whole-query failure (`none`), not a raise part-way through the
input list. -/

/-- The `<form>` handle of a row: `none` means
`form.query_selector_all("input[type=hidden]")` raised; otherwise each pair
is one hidden input's `(get_attribute("name"), get_attribute("value"))`. -/
structure FormHandle where
  hiddenInputs : Option (List (Option String × Option String))
deriving DecidableEq, Repr

/-- A first `<a>` descendant: `getHref` is `none` when
`get_attribute("href")` raised, otherwise the attribute value (itself
optional). -/
structure LinkHandle where
  getHref : Option (Option String)
deriving DecidableEq, Repr

/-- One row handle.  `tds` is `none` when `query_selector_all("td")` raised;
each cell is the result of `inner_text()` (`none` = raised).  `form` is
`none` when `query_selector("form")` raised, `some none` when no form
exists.  `innerText` is the row's own `inner_text()`.  `link` is `none` when
`query_selector("a")` raised, `some none` when no link exists. -/
structure RowHandle where
  tds : Option (List (Option String)) := some []
  form : Option (Option FormHandle) := some none
  innerText : Option String := some ""
  link : Option (Option LinkHandle) := some none
deriving DecidableEq, Repr

/-- Python `str.strip()`: drop leading and trailing whitespace, modelled
with the same ASCII whitespace set as the parser. -/
def pyStrip (s : String) : String :=
  String.mk (((s.toList.dropWhile isPySpace).reverse.dropWhile isPySpace).reverse)

/-- A slot dictionary as built by the extraction loop (string keys, values
from `get_attribute` may be `None`). -/
abbrev RecDict := List (String × Option String)

/-- Python `dict` write: replace in place or append. -/
def dictSet : RecDict → String → Option String → RecDict
  | [], k, v => [(k, v)]
  | p :: rest, k, v => if p.1 = k then (k, v) :: rest else p :: dictSet rest k v

/-- Python `dict` read: `some v` when the key is present. -/
def dictGet : RecDict → String → Option (Option String)
  | [], _ => none
  | p :: rest, k => if p.1 = k then some p.2 else dictGet rest k

/-- Process one row (the body of the `for el in elements` loop, lines
296-331).  `none` means the row raised and was skipped. -/
def extractRow (r : RowHandle) : Option RecDict :=
  match r.tds with
  | none => none
  | some tds =>
    -- `if tds and len(tds) >= 4` (a nonempty list of length ≥ 4 is just
    -- length ≥ 4)
    if h4 : tds.length ≥ 4 then
      match tds.get ⟨0, by omega⟩, tds.get ⟨3, by omega⟩ with
      | some t0, some t3 =>
        let doctor_text := pyStrip t0
        let hora_text := pyStrip t3
        match r.form with
        | none => none
        | some fo =>
          let data0 := dictSet (dictSet [] "doctor" (some doctor_text)) "hora" (some hora_text)
          let data :=
            match fo with
            | none => data0
            | some f =>
              match f.hiddenInputs with
              | none => data0
              | some inputs =>
                inputs.foldl (fun d p =>
                  match p.1 with
                  | some nm => if nm ≠ "" then dictSet d nm p.2 else d
                  | none => d) data0
          some data
      | _, _ => none
    else
      -- fallback branch, lines 317-329: every exception is caught locally
      let text :=
        match r.innerText with
        | some t => pyStrip t
        | none => ""
      let href : Option String :=
        match r.link with
        | none => none
        | some none => none
        | some (some lk) =>
          match lk.getHref with
          | none => none
          | some v => v
      some (dictSet (dictSet [] "text" (some text)) "href" href)

/-- The whole extraction loop: rows that raise are skipped, the rest are
appended in order. -/
def extractSlots (rows : List RowHandle) : List RecDict :=
  rows.filterMap extractRow

example :
    extractSlots [{ tds := some [some "Dr A", some "x", some "y", some "15/06/2025 09:00"] }] =
      [[("doctor", some "Dr A"), ("hora", some "15/06/2025 09:00")]] := by decide
example : extractSlots [{ tds := none }] = [] := by decide
example :
    extractSlots [{ tds := some [], innerText := some " hi ", link := some none }] =
      [[("text", some "hi"), ("href", none)]] := by decide

/-! ## Helper lemmas -/

theorem lookupState_setState_self (st : StateMap) (k : String) (v : SavedEntry) :
    lookupState (setState st k v) k = some v := by
  induction st with
  | nil => simp [setState, lookupState]
  | cons p rest ih =>
    by_cases h : p.1 = k
    · simp [setState, lookupState, h]
    · simp [setState, lookupState, h, ih]

theorem parse_dt_some_truthy {s : Option String} {t : Nat} (h : parse_dt s = some t) :
    pyTruthy s = true := by
  cases s with
  | none => simp [parse_dt] at h
  | some str =>
    by_cases hs : str = ""
    · rw [hs] at h; simp [parse_dt] at h
    · simp [pyTruthy, hs]

theorem find_next_slot_nil (target : String) (max_days now : Nat) :
    find_next_slot [] target max_days now = none := rfl

/-- Shape of a failing CI cycle with no slots file content, from an unpaused
entry still below the failure threshold. -/
theorem updateMain_noslot_fail_low (target : String) (st : StateMap) (entry : SavedEntry)
    (md ph n u : Nat) (hlook : lookupState st target = some entry)
    (hp : entry.paused = false) (hlow : entry.consecutive_failures + 1 < 3) :
    updateMain [] target md true 3 ph n u st =
      ⟨setState st target
        { entry with consecutive_failures := entry.consecutive_failures + 1 },
       [setState st target
        { entry with consecutive_failures := entry.consecutive_failures + 1 }],
       [], 0⟩ := by
  have hns : find_next_slot [] target md n = none := rfl
  have h3 : ¬ (entry.consecutive_failures + 1 ≥ 3) := by omega
  unfold updateMain activeTail
  simp [hns, hlook, hp, parse_dt, h3]

/-- Shape of a failing CI cycle with no slots file content, from an unpaused
entry whose incremented counter reaches the threshold: pause and alert. -/
theorem updateMain_noslot_fail_pause (target : String) (st : StateMap) (entry : SavedEntry)
    (md ph n u : Nat) (hlook : lookupState st target = some entry)
    (hp : entry.paused = false) (hge : entry.consecutive_failures + 1 ≥ 3) :
    updateMain [] target md true 3 ph n u st =
      ⟨setState st target
        { entry with consecutive_failures := entry.consecutive_failures + 1,
                     paused := true,
                     paused_until := some (IsoVal.aware (u + ph * 60)) },
       [setState st target
        { entry with consecutive_failures := entry.consecutive_failures + 1,
                     paused := true,
                     paused_until := some (IsoVal.aware (u + ph * 60)) }],
       [Note.pauseAlert target (entry.consecutive_failures + 1) (u + ph * 60)], 0⟩ := by
  have hns : find_next_slot [] target md n = none := rfl
  unfold updateMain activeTail
  simp [hns, hlook, hp, parse_dt, hge]

/-- Shape of any CI cycle that starts paused with an offset-aware
`paused_until` (the shape the pause transition itself writes): the
naive-vs-aware comparison raises, the handler keeps the provider paused,
no notification is attempted, whatever `slots` contain. -/
theorem updateMain_paused_aware (slots : List Slot) (target : String) (st : StateMap)
    (entry : SavedEntry) (md : Nat) (cap : Bool) (thr ph n u t : Nat)
    (hlook : lookupState st target = some entry)
    (hp : entry.paused = true)
    (hpu : entry.paused_until = some (IsoVal.aware t)) :
    updateMain slots target md cap thr ph n u st =
      ⟨setState st target
        { entry with consecutive_failures :=
            if cap then entry.consecutive_failures + 1 else 0 },
       [setState st target
        { entry with consecutive_failures :=
            if cap then entry.consecutive_failures + 1 else 0 }],
       [], 0⟩ := by
  unfold updateMain
  simp [hlook, hp, hpu]


/-! ## Concrete fixtures for the scenario evaluations -/

/-- The spec's scenario slot: nearest slot `"15/06/2025 09:00"`. -/
def slotJun15 : Slot := { doctor := some "Dr Alvarez", hora := some "15/06/2025 09:00" }

/-- Prior state with `last_hora = "20/06/2025 10:00"`. -/
def entryJun20 : SavedEntry := { hora := some "20/06/2025 10:00" }

/-- A cycle instant before both scenario slots. -/
def nowJun10 : Nat := toInstant 2025 6 10 0 0

/-- An instant before `nowJun10` (an expiry already in the past). -/
def puJun01 : Nat := toInstant 2025 6 1 0 0

/-- `C1`.  Claim: with prior `last_hora = "20/06/2025 10:00"` and new nearest
slot `"15/06/2025 09:00"`, the cycle sends exactly one slot-freed
notification naming the provider, the new time and the previous time, and
the state persisted at the end of the cycle has `last_hora =
"15/06/2025 09:00"`.  What the code does: the notification is sent exactly
once as claimed, and the notify branch writes and saves the new state — but
the function-level `saved.update(...)` / `save_state` at lines 200-202 of
`tools/update_state_and_notify.py` then re-persist the old entry, so the
state at the end of the cycle has `last_hora = "20/06/2025 10:00"` again
(the first save holds the new time, the second and final save reverts it). -/
theorem C1_notify_then_clobber :
    (updateMain [slotJun15] "Alvarez" 30 false 3 24 nowJun10 nowJun10
        [("Alvarez", entryJun20)]).notes =
      [Note.slotFreed "Alvarez" (some "15/06/2025 09:00") (some "20/06/2025 10:00")] ∧
    (updateMain [slotJun15] "Alvarez" 30 false 3 24 nowJun10 nowJun10
        [("Alvarez", entryJun20)]).saves.map
      (fun st => (lookupState st "Alvarez").map SavedEntry.hora) =
      [some (some "15/06/2025 09:00"), some (some "20/06/2025 10:00")] ∧
    (lookupState (updateMain [slotJun15] "Alvarez" 30 false 3 24 nowJun10 nowJun10
        [("Alvarez", entryJun20)]).state "Alvarez").map SavedEntry.hora =
      some (some "20/06/2025 10:00") := by
  exact ⟨by decide, by decide, by decide⟩

/-- `C3`.  Claim: a cycle starting `PAUSED` with `paused_until` strictly in
the past resumes (ACTIVE, failures reset, one resume notification, slot
comparison evaluated).  What the code does: the pause transition stores
`datetime.now(timezone.utc).isoformat()` — an offset-aware timestamp — and
the resume check compares it against the naive `datetime.utcnow()`, which
raises `TypeError`; the `except` branch keeps the provider paused with no
notification, even though the expiry is long past (first conjunct: no notes,
still paused).  The resume branch is reachable only for a hand-written
offset-naive `paused_until`, where the claimed behaviour does occur (second
conjunct). -/
theorem C3_aware_pause_never_resumes :
    ((updateMain [slotJun15] "Alvarez" 30 false 3 24 nowJun10 nowJun10
        [("Alvarez", { entryJun20 with
                       paused := true,
                       paused_until := some (IsoVal.aware puJun01) })]).notes = [] ∧
     (lookupState (updateMain [slotJun15] "Alvarez" 30 false 3 24 nowJun10 nowJun10
        [("Alvarez", { entryJun20 with
                       paused := true,
                       paused_until := some (IsoVal.aware puJun01) })]).state
        "Alvarez").map SavedEntry.paused = some true) ∧
    (updateMain [slotJun15] "Alvarez" 30 false 3 24 nowJun10 nowJun10
        [("Alvarez", { entryJun20 with
                       paused := true,
                       paused_until := some (IsoVal.naive puJun01) })]).notes =
      [Note.resumed "Alvarez",
       Note.slotFreed "Alvarez" (some "15/06/2025 09:00") (some "20/06/2025 10:00")] := by
  exact ⟨⟨by decide, by decide⟩, by decide⟩

/-- `C4`.  Claim: a first observation with a qualifying slot sends no
notification and persists `last_hora` initialized to the slot's time, in
both drivers.  What the code does: in the CI driver the notification is
indeed suppressed, but the trailing lines 200-202 re-persist the old (empty)
entry, so the state at the end of the cycle has `last_hora = None` — the
initialization written by the branch is reverted (first two conjuncts).  In
the CLI monitor loop there is no first-observation suppression at all: the
comparison `new_dt and (not saved_dt or ...)` succeeds with no saved state
and a `"Slot freed ... Previously: None"` notification is sent (third
conjunct). -/
theorem C4_first_observation_behavior :
    (updateMain [slotJun15] "Alvarez" 30 false 3 24 nowJun10 nowJun10 []).notes = [] ∧
    (lookupState (updateMain [slotJun15] "Alvarez" 30 false 3 24 nowJun10 nowJun10
        []).state "Alvarez").map SavedEntry.hora = some none ∧
    (monitorCycle [slotJun15] "Alvarez" 30 nowJun10 []).2.1 =
      [Note.slotFreed "Alvarez" (some "15/06/2025 09:00") none] := by
  exact ⟨by decide, by decide, by decide⟩

/-- `C8`.  Claim: running a cycle twice with byte-identical input slots and
no elapsed time produces no notification on the second run, because the
state persisted by the first run already reflects the nearest slot.  What
the code does (CI driver): the first run notifies, but its final persisted
state has `last_hora` reverted to the previous time by the function-level
re-persist of lines 200-202, so the second identical run compares against
the old time again and sends the same slot-freed notification a second
time. -/
theorem C8_second_run_renotifies :
    (updateMain [slotJun15] "Alvarez" 30 false 3 24 nowJun10 nowJun10
        [("Alvarez", entryJun20)]).notes =
      [Note.slotFreed "Alvarez" (some "15/06/2025 09:00") (some "20/06/2025 10:00")] ∧
    (updateMain [slotJun15] "Alvarez" 30 false 3 24 nowJun10 nowJun10
        (updateMain [slotJun15] "Alvarez" 30 false 3 24 nowJun10 nowJun10
          [("Alvarez", entryJun20)]).state).notes =
      [Note.slotFreed "Alvarez" (some "15/06/2025 09:00") (some "20/06/2025 10:00")] := by
  exact ⟨by decide, by decide⟩

/-! ## C2: slot-freed notifications and monotonic improvement -/

/-- Recognise a slot-freed notification. -/
def isSlotFreed : Note → Bool
  | Note.slotFreed _ _ _ => true
  | _ => false

/-- `C2` counterexample.  The claim says that in an ACTIVE cycle a
notification fires only when the new instant is strictly earlier than the
stored one ("equal or later never notifies").  Concrete input: stored
`last_hora = "15/06/2025 09:00"`, nearest slot also `"15/06/2025 09:00"`
(equal instants), two prior consecutive failures and the failure signal true
this cycle — the cycle sends a pause-alert notification. -/
theorem C2_counterexample :
    (updateMain [slotJun15] "Alvarez" 30 true 3 24 nowJun10 nowJun10
        [("Alvarez", { hora := some "15/06/2025 09:00", consecutive_failures := 2 })]).notes =
      [Note.pauseAlert "Alvarez" 3 (nowJun10 + 24 * 60)] := by decide


/-- `C2` amended.  Restricted to slot-freed notifications the claim holds in
the CI decision engine: for an unpaused provider whose stored `last_hora`
parses to the instant `pd`, the cycle attempts a slot-freed notification iff
the nearest slot's parsed instant is strictly earlier than `pd`; with an
equal or later (or absent) instant no slot-freed notification is attempted.
Other notification kinds (the pause alert, the resume notice) are governed
by the failure policy and may fire in the same cycle regardless of the
comparison. -/
theorem C2_slot_freed_iff_strictly_earlier
    (slots : List Slot) (target : String) (md : Nat) (cap : Bool)
    (thr ph n u : Nat) (st : StateMap) (entry : SavedEntry) (pd : Nat)
    (hlook : lookupState st target = some entry)
    (hp : entry.paused = false)
    (hpd : parse_dt entry.hora = some pd) :
    ((updateMain slots target md cap thr ph n u st).notes.any isSlotFreed = true) ↔
      (∃ nd, parse_dt ((find_next_slot slots target md n).bind
          (fun s => pyOr s.HORA (pyOr s.hora s.PROXIMA))) = some nd ∧ nd < pd) := by
  have htr : pyTruthy entry.hora = true := parse_dt_some_truthy hpd
  unfold updateMain activeTail
  rw [hlook]
  cases hnd : parse_dt ((find_next_slot slots target md n).bind
      (fun s => pyOr s.HORA (pyOr s.hora s.PROXIMA))) with
  | none =>
    simp only [Option.getD_some, hp, Bool.false_eq_true, if_false, hnd, hpd]
    constructor
    · intro h
      exfalso
      revert h
      split <;> split <;> simp [isSlotFreed]
    · rintro ⟨nd, hnd', _⟩
      exact absurd hnd' (by simp)
  | some nd =>
    simp only [Option.getD_some, hp, Bool.false_eq_true, if_false, hnd, hpd,
      decide_eq_true_eq]
    by_cases hlt : nd < pd
    · rw [if_pos hlt]
      simp [htr, isSlotFreed]
      omega
    · rw [if_neg hlt]
      constructor
      · intro h
        exfalso
        revert h
        split <;> split <;> simp [isSlotFreed]
      · rintro ⟨nd', hnd', hlt'⟩
        have heq : nd = nd' := Option.some.inj hnd'
        omega

/-- The `C2` theorem applied at the spec's concrete scenario: stored
`"20/06/2025 10:00"`, slot `"15/06/2025 09:00"` — the strictly earlier
instant makes the slot-freed notification fire. -/
theorem C2_witness :
    (updateMain [slotJun15] "Alvarez" 30 false 3 24 nowJun10 nowJun10
        [("Alvarez", entryJun20)]).notes.any isSlotFreed = true :=
  (C2_slot_freed_iff_strictly_earlier [slotJun15] "Alvarez" 30 false 3 24
      nowJun10 nowJun10 [("Alvarez", entryJun20)] entryJun20
      (toInstant 2025 6 20 10 0) (by decide) (by decide) (by decide)).mpr
    ⟨toInstant 2025 6 15 9 0, by decide, by decide⟩

/-! ## C5: failure-threshold pause -/

/-- `C5` counterexample.  The claim says three consecutive cycles with the
failure signal true transition the provider to `PAUSED` and emit exactly one
pause alert.  Concrete run: two failing cycles with no slots, then a third
failing cycle whose slots file still holds a strictly earlier slot — the
third cycle takes the notify branch, the threshold test (which lives only in
the else branch) is skipped, the provider ends the run unpaused and no pause
alert is ever emitted. -/
theorem C5_counterexample :
    ((updateMain [] "Alvarez" 30 true 3 24 nowJun10 nowJun10
        [("Alvarez", entryJun20)]).notes = []) ∧
    ((updateMain [] "Alvarez" 30 true 3 24 nowJun10 nowJun10
        (updateMain [] "Alvarez" 30 true 3 24 nowJun10 nowJun10
          [("Alvarez", entryJun20)]).state).notes = []) ∧
    ((updateMain [slotJun15] "Alvarez" 30 true 3 24 nowJun10 nowJun10
        (updateMain [] "Alvarez" 30 true 3 24 nowJun10 nowJun10
          (updateMain [] "Alvarez" 30 true 3 24 nowJun10 nowJun10
            [("Alvarez", entryJun20)]).state).state).notes =
      [Note.slotFreed "Alvarez" (some "15/06/2025 09:00") (some "20/06/2025 10:00")]) ∧
    ((lookupState (updateMain [slotJun15] "Alvarez" 30 true 3 24 nowJun10 nowJun10
        (updateMain [] "Alvarez" 30 true 3 24 nowJun10 nowJun10
          (updateMain [] "Alvarez" 30 true 3 24 nowJun10 nowJun10
            [("Alvarez", entryJun20)]).state).state).state "Alvarez").map
      SavedEntry.paused = some false) := by
  exact ⟨by decide, by decide, by decide, by decide⟩

/-- `C5` amended.  Three consecutive failing cycles, starting from an
unpaused entry with a zero failure count, transition the provider to
`PAUSED` with `paused_until = nowUtc + pause duration` and emit exactly one
pause alert naming the provider, the failure count and the resume time —
provided the failing cycles do not take the notify/initialize branch (here:
no slot data at all); and a fourth failing cycle while paused emits no
second alert (the self-written offset-aware expiry keeps the provider on the
except path). -/
theorem C5_pause_exactly_once
    (target : String) (st : StateMap) (entry : SavedEntry)
    (md ph n1 u1 n2 u2 n3 u3 n4 u4 : Nat)
    (r1 r2 r3 r4 : CycleResult)
    (hlook : lookupState st target = some entry)
    (hp : entry.paused = false)
    (hf : entry.consecutive_failures = 0)
    (h1 : r1 = updateMain [] target md true 3 ph n1 u1 st)
    (h2 : r2 = updateMain [] target md true 3 ph n2 u2 r1.state)
    (h3 : r3 = updateMain [] target md true 3 ph n3 u3 r2.state)
    (h4 : r4 = updateMain [] target md true 3 ph n4 u4 r3.state) :
    r1.notes = [] ∧ r2.notes = [] ∧
    r3.notes = [Note.pauseAlert target 3 (u3 + ph * 60)] ∧
    (lookupState r3.state target).map SavedEntry.paused = some true ∧
    (lookupState r3.state target).map SavedEntry.paused_until =
      some (some (IsoVal.aware (u3 + ph * 60))) ∧
    r4.notes = [] := by
  rw [updateMain_noslot_fail_low target st entry md ph n1 u1 hlook hp
    (by omega)] at h1
  have hlook1 : lookupState r1.state target =
      some { entry with consecutive_failures := entry.consecutive_failures + 1 } := by
    rw [h1]; exact lookupState_setState_self _ _ _
  rw [updateMain_noslot_fail_low target r1.state _ md ph n2 u2 hlook1 hp
    (by show entry.consecutive_failures + 1 + 1 < 3; omega)] at h2
  have hlook2 : lookupState r2.state target =
      some { entry with consecutive_failures := entry.consecutive_failures + 1 + 1 } := by
    rw [h2]; exact lookupState_setState_self _ _ _
  rw [updateMain_noslot_fail_pause target r2.state _ md ph n3 u3 hlook2 hp
    (by show entry.consecutive_failures + 1 + 1 + 1 ≥ 3; omega)] at h3
  have hcf3 : entry.consecutive_failures + 1 + 1 + 1 = 3 := by omega
  have hlook3 : lookupState r3.state target =
      some { entry with
             consecutive_failures := entry.consecutive_failures + 1 + 1 + 1,
             paused := true,
             paused_until := some (IsoVal.aware (u3 + ph * 60)) } := by
    rw [h3]; exact lookupState_setState_self _ _ _
  rw [updateMain_paused_aware [] target r3.state _ md true 3 ph n4 u4 (u3 + ph * 60)
    hlook3 rfl rfl] at h4
  refine ⟨by rw [h1], by rw [h2], ?_, ?_, ?_, by rw [h4]⟩
  · rw [h3]; simp [hcf3]
  · rw [hlook3]; rfl
  · rw [hlook3]; rfl

/-- The `C5` theorem applied at a concrete run: after the third failing
cycle the pause alert names the provider, the count 3, and the resume
instant. -/
theorem C5_witness :
    (updateMain [] "Alvarez" 30 true 3 24 nowJun10 nowJun10
      (updateMain [] "Alvarez" 30 true 3 24 nowJun10 nowJun10
        (updateMain [] "Alvarez" 30 true 3 24 nowJun10 nowJun10
          [("Alvarez", entryJun20)]).state).state).notes =
      [Note.pauseAlert "Alvarez" 3 (nowJun10 + 24 * 60)] :=
  (C5_pause_exactly_once "Alvarez" [("Alvarez", entryJun20)] entryJun20 30 24
      nowJun10 nowJun10 nowJun10 nowJun10 nowJun10 nowJun10 nowJun10 nowJun10
      _ _ _ _ (by decide) (by decide) (by decide) rfl rfl rfl rfl).2.2.1

/-! ## C6: remaining paused -/

/-- A future instant for a paused expiry. -/
def puJul01 : Nat := toInstant 2025 7 1 0 0

/-- A paused entry with a future offset-naive expiry and three recorded
consecutive failures. -/
def entryPausedFut : SavedEntry :=
  { hora := some "20/06/2025 10:00",
    consecutive_failures := 3,
    paused := true,
    paused_until := some (IsoVal.naive puJul01) }

/-- `C6` counterexample.  The claim says a cycle that stays `PAUSED`
re-persists the state unchanged, including `consecutive_failures`.  Concrete
input: paused with a future expiry, three stored failures, failure signal
false this cycle — the failure counter is recomputed before the paused check
(lines 117-123), so the persisted entry carries `consecutive_failures = 0`,
not the stored 3. -/
theorem C6_counterexample :
    (lookupState (updateMain [] "Alvarez" 30 false 3 24 nowJun10 nowJun10
        [("Alvarez", entryPausedFut)]).state "Alvarez").map
      SavedEntry.consecutive_failures = some 0 := by decide

/-- `C6` amended.  A cycle that starts `PAUSED` with `paused_until` absent,
or a future offset-naive expiry, or any offset-aware expiry, keeps the
provider `PAUSED`, attempts no notification, persists exactly once, returns
0, and the persisted entry keeps `last_hora`, `raw`, `paused` and
`paused_until` exactly as stored — but `consecutive_failures` is recomputed
from this cycle's failure signal (incremented on failure, reset to 0
otherwise).  The result does not depend on `slots`: the slot comparison is
skipped. -/
theorem C6_paused_cycle_frame
    (slots : List Slot) (target : String) (st : StateMap) (entry : SavedEntry)
    (md : Nat) (cap : Bool) (thr ph n u : Nat)
    (hlook : lookupState st target = some entry)
    (hp : entry.paused = true)
    (hpu : entry.paused_until = none ∨
      (∃ t, entry.paused_until = some (IsoVal.naive t) ∧ u < t) ∨
      (∃ t, entry.paused_until = some (IsoVal.aware t))) :
    updateMain slots target md cap thr ph n u st =
      ⟨setState st target
        { entry with consecutive_failures :=
            if cap then entry.consecutive_failures + 1 else 0 },
       [setState st target
        { entry with consecutive_failures :=
            if cap then entry.consecutive_failures + 1 else 0 }],
       [], 0⟩ := by
  rcases hpu with h | ⟨t, h, hlt⟩ | ⟨t, h⟩
  · unfold updateMain
    simp [hlook, hp, h]
  · have hnle : ¬ t ≤ u := by omega
    unfold updateMain
    simp [hlook, hp, h, hnle]
  · exact updateMain_paused_aware slots target st entry md cap thr ph n u t hlook hp h

/-- The `C6` theorem applied at a concrete paused cycle: no notification is
attempted even though a strictly earlier slot is in the input. -/
theorem C6_witness :
    (updateMain [slotJun15] "Alvarez" 30 false 3 24 nowJun10 nowJun10
        [("Alvarez", entryPausedFut)]).notes = [] := by
  rw [C6_paused_cycle_frame [slotJun15] "Alvarez" [("Alvarez", entryPausedFut)]
    entryPausedFut 30 false 3 24 nowJun10 nowJun10 (by decide) (by decide)
    (Or.inr (Or.inl ⟨puJul01, rfl, by decide⟩))]

/-! ## C7: persistence per branch -/

/-- Every branch of the CI slot-comparison tail ends in at least one
`save_state`. -/
theorem activeTail_saves_nonempty (target : String) (state : StateMap) (saved : SavedEntry)
    (prev_hora : Option String) (next_slot : Option Slot) (new_hora : Option String)
    (prev_dt new_dt : Option Nat) (failures : Nat) (paused : Bool)
    (paused_until : Option IsoVal) (thr ph u : Nat) :
    1 ≤ (activeTail target state saved prev_hora next_slot new_hora prev_dt new_dt
        failures paused paused_until thr ph u).saves.length := by
  unfold activeTail
  dsimp only
  split <;> split <;> simp

/-- `C7` counterexample.  The claim says every branch in both drivers
persists the state before the cycle completes.  Concrete input: a monitor
iteration whose nearest slot equals the stored one — the no-op branch of the
CLI monitor loop calls no `save_state` (and sends nothing). -/
theorem C7_counterexample :
    (monitorCycle [slotJun15] "Alvarez" 30 nowJun10
        [("Alvarez", { hora := some "15/06/2025 09:00" })]).2.2 = false ∧
    (monitorCycle [slotJun15] "Alvarez" 30 nowJun10
        [("Alvarez", { hora := some "15/06/2025 09:00" })]).2.1 = [] := by
  exact ⟨by decide, by decide⟩

/-- `C7` amended.  In the CI driver every decision branch persists the state
at least once before the cycle completes (first conjunct, over all inputs).
In the CLI monitor loop, state is persisted exactly on the notify branch:
the save flag equals "some notification was sent", so no-op and no-slot
iterations leave the store unwritten (second conjunct). -/
theorem C7_ci_saves_monitor_notify_only :
    (∀ (slots : List Slot) (target : String) (md : Nat) (cap : Bool)
        (thr ph n u : Nat) (st : StateMap),
       1 ≤ (updateMain slots target md cap thr ph n u st).saves.length) ∧
    (∀ (slots : List Slot) (target : String) (md n : Nat) (st : StateMap),
       (monitorCycle slots target md n st).2.2 =
         !(monitorCycle slots target md n st).2.1.isEmpty) := by
  constructor
  · intro slots target md cap thr ph n u st
    unfold updateMain
    dsimp only
    split
    · split
      · split
        · dsimp only
          apply activeTail_saves_nonempty
        · simp
      · simp
      · simp
      · simp
    · apply activeTail_saves_nonempty
  · intro slots target md n st
    unfold monitorCycle
    split
    · dsimp only
      split <;> rfl
    · rfl

/-! ## C9: the Temporal Matcher -/

/-- The fold of `stepMin` over `c :: cs` returns the first element attaining
the minimal instant: the list splits around the result, with every element
strictly greater before it and nothing smaller anywhere.  This is the head
of Python's stable `sort(key=λ x: x[0])`. -/
theorem foldl_stepMin_spec :
    ∀ (cs : List (Nat × Slot)) (c : Nat × Slot),
      ∃ L₁ L₂, c :: cs = L₁ ++ (cs.foldl stepMin c) :: L₂ ∧
        (∀ p ∈ c :: cs, (cs.foldl stepMin c).1 ≤ p.1) ∧
        (∀ p ∈ L₁, (cs.foldl stepMin c).1 < p.1) := by
  intro cs
  induction cs with
  | nil =>
    intro c
    exact ⟨[], [], rfl, by simp, by simp⟩
  | cons p rest ih =>
    intro c
    rw [List.foldl_cons]
    by_cases hp : p.1 < c.1
    · have hstep : stepMin c p = p := by simp [stepMin, hp]
      rw [hstep]
      obtain ⟨L₁, L₂, heq, hmin, hstrict⟩ := ih p
      have hple : (rest.foldl stepMin p).1 ≤ p.1 := hmin p (List.mem_cons_self _ _)
      refine ⟨c :: L₁, L₂, ?_, ?_, ?_⟩
      · rw [List.cons_append, ← heq]
      · intro q hq
        rcases List.mem_cons.mp hq with hq | hq
        · rw [hq]; omega
        · exact hmin q hq
      · intro q hq
        rcases List.mem_cons.mp hq with hq | hq
        · rw [hq]; omega
        · exact hstrict q hq
    · have hstep : stepMin c p = c := by simp [stepMin, hp]
      rw [hstep]
      obtain ⟨L₁, L₂, heq, hmin, hstrict⟩ := ih c
      have hcle : (rest.foldl stepMin c).1 ≤ c.1 := hmin c (List.mem_cons_self _ _)
      cases L₁ with
      | nil =>
        simp only [List.nil_append] at heq
        injection heq with h1 h2
        refine ⟨[], p :: rest, ?_, ?_, ?_⟩
        · rw [List.nil_append, ← h1]
        · intro q hq
          rcases List.mem_cons.mp hq with hq | hq
          · rw [hq]; omega
          rcases List.mem_cons.mp hq with hq | hq
          · rw [hq]; omega
          · exact hmin q (List.mem_cons_of_mem _ hq)
        · intro q hq
          exact absurd hq (List.not_mem_nil q)
      | cons a L₁' =>
        rw [List.cons_append] at heq
        injection heq with h1 h2
        have ha := hstrict a (List.mem_cons_self _ _)
        rw [← h1] at ha
        refine ⟨c :: p :: L₁', L₂, ?_, ?_, ?_⟩
        · rw [List.cons_append, List.cons_append, ← h2]
        · intro q hq
          rcases List.mem_cons.mp hq with hq | hq
          · rw [hq]; omega
          rcases List.mem_cons.mp hq with hq | hq
          · rw [hq]; omega
          · exact hmin q (List.mem_cons_of_mem _ hq)
        · intro q hq
          rcases List.mem_cons.mp hq with hq | hq
          · rw [hq]; omega
          rcases List.mem_cons.mp hq with hq | hq
          · rw [hq]; omega
          · exact hstrict q (List.mem_cons_of_mem _ hq)

/-- What it means for one slot to contribute the candidate `(d, s)`. -/
theorem candOf_eq_some_iff (now cutoff : Nat) (td : List Char) (a : Slot)
    (d : Nat) (s : Slot) :
    candOf now cutoff td a = some (d, s) ↔
      (a = s ∧ listContains td (lowerChars (a.doctor.getD "")) = true ∧
       slotDt a = some d ∧ now < d ∧ d ≤ cutoff) := by
  unfold candOf
  dsimp only
  by_cases hc : listContains td (lowerChars (a.doctor.getD "")) = true
  · rw [if_pos hc]
    cases hdt : slotDt a with
    | none =>
      constructor
      · intro h
        exact Option.noConfusion h
      · rintro ⟨rfl, -, hd, -, -⟩
        exact Option.noConfusion hd
    | some t =>
      dsimp only
      by_cases hin : now < t ∧ t ≤ cutoff
      · rw [if_pos hin]
        constructor
        · intro h
          have h' := Option.some.inj h
          have h1 : t = d := congrArg Prod.fst h'
          have h2 : a = s := congrArg Prod.snd h'
          exact ⟨h2, hc, by rw [h1], by omega, by omega⟩
        · rintro ⟨rfl, -, hd, h1', h2'⟩
          have htd : t = d := Option.some.inj hd
          rw [htd]
      · rw [if_neg hin]
        constructor
        · intro h
          exact Option.noConfusion h
        · rintro ⟨rfl, -, hd, h1', h2'⟩
          have htd : t = d := Option.some.inj hd
          exact absurd ⟨by omega, by omega⟩ hin
  · rw [if_neg hc]
    constructor
    · intro h
      exact Option.noConfusion h
    · rintro ⟨rfl, hc', -, -, -⟩
      exact absurd hc' hc

/-- `C9`.  `find_next_slot` returns nothing iff there is no candidate; a
returned slot is a candidate attaining the minimal instant with every
earlier-positioned candidate strictly later (stable tie-break by input
order); a pair is a candidate exactly when the lowered target is a substring
of the slot's provider, its time chain parses, and the instant lies in
`(now, now + horizon]`; a horizon of 0 days yields nothing; and a slot whose
time is missing or unparsable is silently excluded, never failing the
call. -/
theorem C9_find_next_slot_spec (slots : List Slot) (target : String) (max_days now : Nat) :
    (find_next_slot slots target max_days now = none ↔
      findCandidates slots target max_days now = []) ∧
    (∀ s, find_next_slot slots target max_days now = some s →
      ∃ d L₁ L₂,
        findCandidates slots target max_days now = L₁ ++ (d, s) :: L₂ ∧
        (∀ p ∈ findCandidates slots target max_days now, d ≤ p.1) ∧
        (∀ p ∈ L₁, d < p.1)) ∧
    (∀ d s, (d, s) ∈ findCandidates slots target max_days now ↔
      (s ∈ slots ∧
       listContains (lowerChars target) (lowerChars (s.doctor.getD "")) = true ∧
       slotDt s = some d ∧ now < d ∧ d ≤ now + max_days * 1440)) ∧
    (max_days = 0 → find_next_slot slots target max_days now = none) ∧
    (∀ s rest, slotDt s = none →
      findCandidates (s :: rest) target max_days now =
        findCandidates rest target max_days now) := by
  refine ⟨?_, ?_, ?_, ?_, ?_⟩
  · unfold find_next_slot
    cases hc : findCandidates slots target max_days now with
    | nil => simp [minByFirst]
    | cons c cs => simp [minByFirst]
  · intro s hs
    unfold find_next_slot at hs
    cases hc : findCandidates slots target max_days now with
    | nil =>
      rw [hc] at hs
      exact Option.noConfusion hs
    | cons c cs =>
      rw [hc] at hs
      have hs2 : (cs.foldl stepMin c).2 = s := Option.some.inj hs
      obtain ⟨L₁, L₂, heq, hmin, hstrict⟩ := foldl_stepMin_spec cs c
      refine ⟨(cs.foldl stepMin c).1, L₁, L₂, ?_, ?_, ?_⟩
      · have hpair : ((cs.foldl stepMin c).1, s) = cs.foldl stepMin c := by
          rw [← hs2]
        rw [hpair]
        exact heq
      · intro p hp
        exact hmin p hp
      · exact hstrict
  · intro d s
    unfold findCandidates
    rw [List.mem_filterMap]
    constructor
    · rintro ⟨a, ha, hfa⟩
      obtain ⟨rfl, h1, h2, h3, h4⟩ := (candOf_eq_some_iff _ _ _ _ _ _).mp hfa
      exact ⟨ha, h1, h2, h3, h4⟩
    · rintro ⟨hmem, h1, h2, h3, h4⟩
      exact ⟨s, hmem, (candOf_eq_some_iff _ _ _ _ _ _).mpr ⟨rfl, h1, h2, h3, h4⟩⟩
  · intro h0
    have hc : findCandidates slots target max_days now = [] := by
      unfold findCandidates
      rw [List.filterMap_eq_nil_iff]
      intro a ha
      unfold candOf
      dsimp only
      by_cases hcont : listContains (lowerChars target) (lowerChars (a.doctor.getD "")) = true
      · rw [if_pos hcont]
        cases hdt : slotDt a with
        | none => rfl
        | some t =>
          dsimp only
          rw [if_neg]
          rintro ⟨hlt, hle⟩
          rw [h0] at hle
          simp at hle
          omega
      · rw [if_neg hcont]
    unfold find_next_slot
    rw [hc]
    rfl
  · intro s rest hdt
    unfold findCandidates
    rw [List.filterMap_cons]
    have hnone : candOf now (now + max_days * 1440) (lowerChars target) s = none := by
      unfold candOf
      dsimp only
      split
      · rw [hdt]
      · rfl
    rw [hnone]

/-- The `C9` theorem applied at a concrete slot list: the scenario slot is
returned and sits at a minimal position of the candidate list. -/
theorem C9_witness :
    ∃ d L₁ L₂,
      findCandidates [slotJun15] "Alvarez" 30 nowJun10 = L₁ ++ (d, slotJun15) :: L₂ ∧
      (∀ p ∈ findCandidates [slotJun15] "Alvarez" 30 nowJun10, d ≤ p.1) ∧
      (∀ p ∈ L₁, d < p.1) :=
  (C9_find_next_slot_spec [slotJun15] "Alvarez" 30 nowJun10).2.1 slotJun15 (by decide)

/-! ## C10: extraction totality -/

/-- A key present in a dictionary stays present across any `dict` write. -/
theorem dictGet_isSome_dictSet (d : RecDict) (k k' : String) (v : Option String)
    (h : (dictGet d k).isSome = true) :
    (dictGet (dictSet d k' v) k).isSome = true := by
  induction d with
  | nil => simp [dictGet] at h
  | cons p rest ih =>
    by_cases hk' : p.1 = k'
    · rw [dictSet, if_pos hk']
      by_cases hk : k' = k
      · simp [dictGet, hk]
      · rw [dictGet, if_neg hk]
        rw [dictGet] at h
        rw [if_neg (fun hc => hk (hk' ▸ hc))] at h
        exact h
    · rw [dictSet, if_neg hk']
      by_cases hk : p.1 = k
      · simp [dictGet, hk]
      · rw [dictGet, if_neg hk]
        rw [dictGet, if_neg hk] at h
        exact ih h

/-- The hidden-input copy loop (checker.py lines 307-312) never removes a
key that is already in the record. -/
theorem hiddenFold_preserves (inputs : List (Option String × Option String))
    (d : RecDict) (k : String) (h : (dictGet d k).isSome = true) :
    (dictGet (inputs.foldl (fun d p =>
        match p.1 with
        | some nm => if nm ≠ "" then dictSet d nm p.2 else d
        | none => d) d) k).isSome = true := by
  induction inputs generalizing d with
  | nil => simpa using h
  | cons q rest ih =>
    rw [List.foldl_cons]
    apply ih
    match q with
    | (none, v) => simpa using h
    | (some nm, v) =>
      by_cases hnm : nm = ""
      · simpa [hnm] using h
      · simpa [hnm] using dictGet_isSome_dictSet d k nm v h

/-- `C10` counterexample.  The claim says every row with ≥ 4 cells and no
thrown accessor produces a record with NON-EMPTY provider and time fields.
Concrete input: a row of four cells whose `inner_text()` calls all succeed
returning empty strings — the code appends the record with
`doctor = hora = ""` (the stripped empty text), so the produced record's
provider is the empty string. -/
theorem C10_counterexample :
    extractRow { tds := some [some "", some "", some "", some ""] } =
      some [("doctor", some ""), ("hora", some "")] := by decide

/-- `C10` amended.  Extraction is total: it returns at most one record per
row; a row whose processing raises is skipped while extraction continues
with the remaining rows; and every row exposing at least 4 cells whose
accessors do not throw produces a record in which the `doctor` and `hora`
fields are present — populated from the stripped cell texts, which may be
empty strings. -/
theorem C10_extraction_spec :
    (∀ rows : List RowHandle, (extractSlots rows).length ≤ rows.length) ∧
    (∀ (r : RowHandle) (rest : List RowHandle), extractRow r = none →
        extractSlots (r :: rest) = extractSlots rest) ∧
    (∀ (r : RowHandle) (tds : List (Option String)) (t0 t3 : String)
        (fo : Option FormHandle),
        r.tds = some tds → tds.length ≥ 4 →
        tds.get? 0 = some (some t0) → tds.get? 3 = some (some t3) →
        r.form = some fo →
        ∃ d, extractRow r = some d ∧
          (dictGet d "doctor").isSome = true ∧ (dictGet d "hora").isSome = true) := by
  refine ⟨?_, ?_, ?_⟩
  · intro rows
    exact List.length_filterMap_le _ _
  · intro r rest h
    simp [extractSlots, List.filterMap_cons, h]
  · intro r tds t0 t3 fo htds hlen h0 h3 hform
    have h0' : tds.get ⟨0, by omega⟩ = some t0 := by
      rw [List.get?_eq_get (by omega : 0 < tds.length)] at h0
      exact Option.some.inj h0
    have h3' : tds.get ⟨3, by omega⟩ = some t3 := by
      rw [List.get?_eq_get (by omega : 3 < tds.length)] at h3
      exact Option.some.inj h3
    unfold extractRow
    rw [htds]
    dsimp only
    rw [dif_pos hlen]
    rw [h0', h3', hform]
    dsimp only
    have hbase : (dictGet (dictSet (dictSet [] "doctor" (some (pyStrip t0)))
        "hora" (some (pyStrip t3))) "doctor").isSome = true ∧
        (dictGet (dictSet (dictSet [] "doctor" (some (pyStrip t0)))
        "hora" (some (pyStrip t3))) "hora").isSome = true := by
      constructor <;> simp [dictSet, dictGet]
    cases fo with
    | none =>
      dsimp only
      exact ⟨_, rfl, hbase.1, hbase.2⟩
    | some f =>
      dsimp only
      cases hf : f.hiddenInputs with
      | none =>
        dsimp only
        exact ⟨_, rfl, hbase.1, hbase.2⟩
      | some inputs =>
        dsimp only
        exact ⟨_, rfl, hiddenFold_preserves inputs _ _ hbase.1,
          hiddenFold_preserves inputs _ _ hbase.2⟩

/-- The `C10` theorem applied at a concrete structured row. -/
theorem C10_witness :
    ∃ d, extractRow { tds := some [some "Dr A", some "x", some "y",
        some "15/06/2025 09:00"] } = some d ∧
      (dictGet d "doctor").isSome = true ∧ (dictGet d "hora").isSome = true :=
  C10_extraction_spec.2.2 _ _ "Dr A" "15/06/2025 09:00" none rfl (by decide) rfl rfl rfl
